import Mathlib

/-!
Verification development for the `usbd-ctaphid` crate: a shallow embedding of
the CTAPHID pipe state machine (`src/pipe.rs`), the CBOR serialisation of
`authenticatorGetInfo`, and the `InsecureRamAuthenticator` operations
(`src/insecure.rs`), together with theorems settling the specification claims.

Machine integers are modelled as `Nat` with explicit `% 2^w` where overflow or
truncation matters; byte buffers are functions `Nat → Nat` whose reads are
normalised with `% 256`; packets on the wire are lists of 64 byte values.
-/

namespace UsbdCtaphid

/-- PACKET_SIZE from `constants.rs` (64 bytes per USB HID packet). -/
def PACKET_SIZE : Nat := 64

/-- MESSAGE_SIZE from `constants.rs`: `PACKET_SIZE - 7 + 128 * (PACKET_SIZE - 5) = 7609`. -/
def MESSAGE_SIZE : Nat := PACKET_SIZE - 7 + 128 * (PACKET_SIZE - 5)

/-! ## CBOR encoding

Modelled from the spec: the CBOR codec (§4.2) is provided by the external
`serde_cbor` fork, not by code under `src/`; the encoders below follow the
spec's canonical-CBOR contract (definite lengths, minimal-length arguments,
map entries in declared order). -/

/-- Modelled from the spec: CBOR head byte(s) for a major type with argument `n`,
using the minimal-length argument encoding of canonical CBOR. -/
def cborHead (major n : Nat) : List Nat :=
  if n < 24 then [32 * major + n]
  else if n < 2 ^ 8 then [32 * major + 24, n]
  else if n < 2 ^ 16 then [32 * major + 25, n / 2 ^ 8 % 256, n % 256]
  else [32 * major + 26, n / 2 ^ 24 % 256, n / 2 ^ 16 % 256, n / 2 ^ 8 % 256, n % 256]

/-- Modelled from the spec: CBOR unsigned integer (major type 0). -/
def cborUInt (n : Nat) : List Nat := cborHead 0 n

/-- Modelled from the spec: CBOR integer; negative values use major type 1
with argument `-1 - m`. -/
def cborInt (m : Int) : List Nat :=
  if m < 0 then cborHead 1 (-1 - m).toNat else cborHead 0 m.toNat

/-- Modelled from the spec: CBOR definite-length byte string (major type 2). -/
def cborBytes (bs : List Nat) : List Nat := cborHead 2 bs.length ++ bs

/-- Modelled from the spec: CBOR definite-length text string (major type 3);
the text is given as its UTF-8 bytes. -/
def cborText (s : List Nat) : List Nat := cborHead 3 s.length ++ s

/-- Modelled from the spec: CBOR definite-length array (major type 4). -/
def cborArray (xs : List (List Nat)) : List Nat := cborHead 4 xs.length ++ xs.flatten

/-- Modelled from the spec: CBOR definite-length map (major type 5), entries
emitted in the declared order. -/
def cborMap (kvs : List (List Nat × List Nat)) : List Nat :=
  cborHead 5 kvs.length ++ (kvs.map (fun kv => kv.1 ++ kv.2)).flatten

/-- Modelled from the spec: CBOR booleans `0xf4` / `0xf5`. -/
def cborBool (b : Bool) : List Nat := if b then [0xf5] else [0xf4]

/-! ## The type model (`types.rs`) and `get_info` (`insecure.rs`) -/

/-- UTF-8 bytes of the string "rk". -/
def strRk : List Nat := [0x72, 0x6b]

/-- UTF-8 bytes of the string "up". -/
def strUp : List Nat := [0x75, 0x70]

/-- UTF-8 bytes of the string "uv". -/
def strUv : List Nat := [0x75, 0x76]

/-- UTF-8 bytes of the string "plat". -/
def strPlat : List Nat := [0x70, 0x6c, 0x61, 0x74]

/-- UTF-8 bytes of the string "clientPin" (camelCase rename of `client_pin`). -/
def strClientPin : List Nat := [0x63, 0x6c, 0x69, 0x65, 0x6e, 0x74, 0x50, 0x69, 0x6e]

/-- UTF-8 bytes of the string "FIDO_2_0". -/
def strFido20 : List Nat := [0x46, 0x49, 0x44, 0x4f, 0x5f, 0x32, 0x5f, 0x30]

/-- CtapOptions from `types.rs`, fields in declared order `rk, up, uv, plat, client_pin`. -/
structure CtapOptions where
  rk : Bool
  up : Bool
  uv : Option Bool
  plat : Bool
  clientPin : Option Bool
  deriving DecidableEq

/-- Default for CtapOptions from `types.rs`. -/
def CtapOptions.default : CtapOptions :=
  { rk := false, up := true, uv := none, plat := false, clientPin := none }

/-- AuthenticatorInfo from `types.rs`, fields in declared order; strings are
modelled as their UTF-8 byte lists. -/
structure AuthenticatorInfo where
  versions : List (List Nat)
  extensions : Option (List (List Nat))
  aaguid : List Nat
  options : Option CtapOptions
  maxMsgSize : Option Nat
  pinProtocols : Option (List Nat)
  maxCredsInList : Option Nat
  maxCredIdLength : Option Nat
  deriving DecidableEq

/-- Default for AuthenticatorInfo from `types.rs` (zeroed 16-byte aaguid,
`options = Some(CtapOptions::default())`, `max_msg_size = Some(MESSAGE_SIZE)`). -/
def AuthenticatorInfo.default : AuthenticatorInfo :=
  { versions := []
  , extensions := none
  , aaguid := List.replicate 16 0
  , options := some CtapOptions.default
  , maxMsgSize := some MESSAGE_SIZE
  , pinProtocols := none
  , maxCredsInList := none
  , maxCredIdLength := none }

/-- Modelled from the spec: serialisation of `CtapOptions` by the external
`serde_cbor` codec — a CBOR map with camelCase text keys in declared field
order, `None` fields omitted (`skip_serializing_if`). -/
def serializeCtapOptions (o : CtapOptions) : List Nat :=
  cborMap
    ([(cborText strRk, cborBool o.rk), (cborText strUp, cborBool o.up)]
      ++ (match o.uv with
          | some b => [(cborText strUv, cborBool b)]
          | none => [])
      ++ [(cborText strPlat, cborBool o.plat)]
      ++ (match o.clientPin with
          | some b => [(cborText strClientPin, cborBool b)]
          | none => []))

/-- Modelled from the spec: the packed serialisation of `AuthenticatorInfo` by
the external `serde_cbor` fork configured with
`packed_format().pack_starting_with(1).pack_to_depth(1)` — top-level struct
fields become integer keys `1..` by declared position, `None` fields are
omitted, and nested structs (depth 2) serialise with text keys. -/
def serializeAuthenticatorInfo (info : AuthenticatorInfo) : List Nat :=
  let fields : List (Option (List Nat)) :=
    [ some (cborArray (info.versions.map cborText))
    , info.extensions.map (fun xs => cborArray (xs.map cborText))
    , some (cborBytes info.aaguid)
    , info.options.map serializeCtapOptions
    , info.maxMsgSize.map cborUInt
    , info.pinProtocols.map (fun xs => cborArray (xs.map cborUInt))
    , info.maxCredsInList.map cborUInt
    , info.maxCredIdLength.map cborUInt ]
  cborMap
    (((List.range fields.length).zip fields).filterMap
      (fun p => p.2.map (fun v => (cborUInt (p.1 + 1), v))))

/-- The aaguid of `InsecureRamAuthenticator` (`insecure.rs`): the bytes of
"AAGUID0123456789". -/
def insecureAaguid : List Nat :=
  [0x41, 0x41, 0x47, 0x55, 0x49, 0x44, 0x30, 0x31, 0x32, 0x33, 0x34, 0x35, 0x36, 0x37, 0x38, 0x39]

/-- InsecureRamAuthenticator::get_info from `insecure.rs`: versions
`["FIDO_2_0"]`, the fixed aaguid, `max_msg_size = Some(MESSAGE_SIZE)`,
remaining fields from `AuthenticatorInfo::default()`. -/
def insecureGetInfo : AuthenticatorInfo :=
  { AuthenticatorInfo.default with
      versions := [strFido20]
    , aaguid := insecureAaguid
    , maxMsgSize := some MESSAGE_SIZE }

/-- The serialised `AuthenticatorInfo` produced for `authenticatorGetInfo`. -/
def getInfoEncoded : List Nat := serializeAuthenticatorInfo insecureGetInfo

/-- The full `authenticatorGetInfo` response payload: success status byte `0x00`
followed by the packed CBOR encoding (`Pipe::handle_cbor`, `pipe.rs`). -/
def getInfoResponsePayload : List Nat := 0 :: getInfoEncoded

/-! ## The CTAPHID pipe (`pipe.rs`) -/

/-- Command from `pipe.rs` (transport-level command byte). -/
inductive Command where
  | ping
  | msg
  | init
  | error
  | wink
  | lock
  | cbor
  | cancel
  | keepAlive
  | vendor (code : Nat)
  deriving DecidableEq

/-- Command::try_from from `pipe.rs`: known codes, vendor range `0x40..=0x7f`,
everything else fails. -/
def Command.tryFrom (b : Nat) : Option Command :=
  if b = 0x01 then some .ping
  else if b = 0x03 then some .msg
  else if b = 0x06 then some .init
  else if b = 0x3f then some .error
  else if b = 0x08 then some .wink
  else if b = 0x04 then some .lock
  else if b = 0x10 then some .cbor
  else if b = 0x11 then some .cancel
  else if b = 0x3b then some .keepAlive
  else if 0x40 ≤ b ∧ b ≤ 0x7f then some (.vendor b)
  else none

/-- Command::into_u8 from `pipe.rs`. -/
def Command.intoU8 : Command → Nat
  | .ping => 0x01
  | .msg => 0x03
  | .init => 0x06
  | .error => 0x3f
  | .wink => 0x08
  | .lock => 0x04
  | .cbor => 0x10
  | .cancel => 0x11
  | .keepAlive => 0x3b
  | .vendor code => code

/-- Operation from `pipe.rs` (CTAP2 operation byte of a `Cbor` message). -/
inductive Operation where
  | makeCredential
  | getAssertion
  | getNextAssertion
  | getInfo
  | clientPin
  | reset
  | vendor (code : Nat)
  deriving DecidableEq

/-- Operation::try_from from `pipe.rs`. -/
def Operation.tryFrom (b : Nat) : Option Operation :=
  if b = 0x01 then some .makeCredential
  else if b = 0x02 then some .getAssertion
  else if b = 0x08 then some .getNextAssertion
  else if b = 0x04 then some .getInfo
  else if b = 0x06 then some .clientPin
  else if b = 0x07 then some .reset
  else if 0x40 ≤ b ∧ b ≤ 0x7f then some (.vendor b)
  else none

/-- Request header from `pipe.rs` (`channel: u32`, `command`, `length: u16`). -/
structure Request where
  channel : Nat
  command : Command
  length : Nat
  deriving DecidableEq

/-- Response header from `pipe.rs`. -/
structure Response where
  channel : Nat
  command : Command
  length : Nat
  deriving DecidableEq

/-- Response::from_request_and_size from `pipe.rs`. -/
def Response.fromRequestAndSize (request : Request) (size : Nat) : Response :=
  { channel := request.channel, command := request.command, length := size }

/-- MessageState from `pipe.rs`: sequence number of the next continuation
packet and number of payload bytes transmitted so far. -/
structure MessageState where
  nextSequence : Nat
  transmitted : Nat
  deriving DecidableEq

/-- MessageState::default from `pipe.rs`: `next_sequence 0`,
`transmitted = PACKET_SIZE - 7 = 57`. -/
def MessageState.deflt : MessageState :=
  { nextSequence := 0, transmitted := PACKET_SIZE - 7 }

/-- MessageState::absorb_packet from `pipe.rs`: `next_sequence += 1` (u8 wraps)
and `transmitted += PACKET_SIZE - 5 = 59`. -/
def MessageState.absorbPacket (m : MessageState) : MessageState :=
  { nextSequence := (m.nextSequence + 1) % 256, transmitted := m.transmitted + (PACKET_SIZE - 5) }

/-- State from `pipe.rs`: the five pipe states. -/
inductive State where
  | idle
  | receiving (request : Request) (messageState : MessageState)
  | processing (request : Request)
  | responsePending (response : Response)
  | sending (response : Response) (messageState : MessageState)
  deriving DecidableEq

/-- Pipe from `pipe.rs`: state, shared message buffer (a byte at each index)
and the last assigned channel id. The USB endpoints are external
collaborators; write outcomes are passed in explicitly. -/
structure Pipe where
  state : State
  buffer : Nat → Nat
  lastChannel : Nat

/-- Outcome of a `write_endpoint.write` attempt (the cases the source treats
as non-panicking): the full 64-byte packet was accepted, or `WouldBlock`. -/
inductive WriteRes where
  | ok64
  | wouldBlock
  deriving DecidableEq

/-- Write `n` source bytes into a buffer starting at `start`
(`copy_from_slice` on `buffer[start..start+n]`). -/
def writeBytes (buf : Nat → Nat) (start n : Nat) (src : Nat → Nat) : Nat → Nat :=
  fun i => if start ≤ i ∧ i < start + n then src (i - start) else buf i

/-- Write a single byte at index `i`. -/
def setByte (buf : Nat → Nat) (i v : Nat) : Nat → Nat :=
  fun j => if j = i then v else buf j

/-- Byte `i` of the big-endian encoding of a `u32` (`to_be_bytes`). -/
def be32byte (n i : Nat) : Nat := n / 2 ^ (8 * (3 - i)) % 256

/-- Byte `i` of the initialisation packet built in `maybe_write_packet`
(`ResponsePending` arm): channel (4 bytes BE), `command | 0x80`, length
(2 bytes BE), then `min(length, 57)` payload bytes from the buffer, with all
remaining bytes zero. For a byte `b < 256`, `b ||| 0x80 = b % 128 + 128`. -/
def initPacketByte (r : Response) (buf : Nat → Nat) (i : Nat) : Nat :=
  if i < 4 then be32byte r.channel i
  else if i = 4 then r.command.intoU8 % 128 + 128
  else if i = 5 then r.length / 256 % 256
  else if i = 6 then r.length % 256
  else if i - 7 < min r.length (PACKET_SIZE - 7) then buf (i - 7) % 256
  else 0

/-- The 64-byte initialisation packet as a list. -/
def initPacket (r : Response) (buf : Nat → Nat) : List Nat :=
  (List.range PACKET_SIZE).map (initPacketByte r buf)

/-- Byte `i` of a continuation packet built in `maybe_write_packet`
(`Sending` arm): channel (4 bytes BE), sequence byte, then
`min(59, length - transmitted)` payload bytes from the buffer starting at
`transmitted`, with all remaining bytes zero. -/
def contPacketByte (r : Response) (m : MessageState) (buf : Nat → Nat) (i : Nat) : Nat :=
  if i < 4 then be32byte r.channel i
  else if i = 4 then m.nextSequence % 256
  else if i - 5 < min (PACKET_SIZE - 5) (r.length - m.transmitted) then
    buf (m.transmitted + (i - 5)) % 256
  else 0

/-- The 64-byte continuation packet as a list. -/
def contPacket (r : Response) (m : MessageState) (buf : Nat → Nat) : List Nat :=
  (List.range PACKET_SIZE).map (contPacketByte r m buf)

/-- Pipe::maybe_write_packet from `pipe.rs`. Returns the new pipe and the
packet accepted by the endpoint, if the write attempt succeeded. Note the
source assigns `self.state = State::Idle` in the `ResponsePending` arm
before the write whenever the response fits in one packet, so a
`WouldBlock` there still lands in `Idle`. -/
def maybeWriteStep (p : Pipe) (res : WriteRes) : Pipe × Option (List Nat) :=
  match p.state with
  | .responsePending r =>
      match res with
      | .wouldBlock =>
          ({ p with state := if 7 + r.length ≤ PACKET_SIZE then .idle else p.state }, none)
      | .ok64 =>
          ({ p with state :=
               if 7 + r.length ≤ PACKET_SIZE then .idle else .sending r MessageState.deflt },
           some (initPacket r p.buffer))
  | .sending r m =>
      match res with
      | .wouldBlock => (p, none)
      | .ok64 =>
          ({ p with state :=
               if 5 + (r.length - m.transmitted) ≤ PACKET_SIZE then .idle
               else .sending r m.absorbPacket },
           some (contPacket r m p.buffer))
  | _ => (p, none)

/-- Pipe::start_sending from `pipe.rs`: enter `ResponsePending` and attempt
one write. -/
def startSending (p : Pipe) (response : Response) (res : WriteRes) : Pipe × Option (List Nat) :=
  maybeWriteStep { p with state := .responsePending response } res

/-- Pipe::handle_cbor from `pipe.rs`, with the serialised
`authenticator.get_info()` output passed in as `info` (the authenticator is
an injected collaborator). Only `GetInfo` produces a response; all other
operations (and an empty payload, and unknown operation bytes) return with
the pipe unchanged. -/
def handleCbor (p : Pipe) (request : Request) (info : List Nat) (res : WriteRes) :
    Pipe × Option (List Nat) :=
  if request.length < 1 then (p, none)
  else
    match Operation.tryFrom (p.buffer 0 % 256) with
    | none => (p, none)
    | some .getInfo =>
        let buf := writeBytes (setByte p.buffer 0 0) 1 info.length (fun k => info.getD k 0)
        let size := 1 + info.length
        startSending { p with buffer := buf } (Response.fromRequestAndSize request size) res
    | some _ => (p, none)

/-- Pipe::dispatch_request from `pipe.rs`. `Init` on the broadcast channel
with length 8 assigns a channel and answers; `Ping` echoes; `Wink` answers
with an empty payload; `Cbor` dispatches on the operation byte; everything
else falls through with the pipe unchanged (still `Processing`). -/
def dispatchRequest (p : Pipe) (info : List Nat) (res : WriteRes) : Pipe × Option (List Nat) :=
  match p.state with
  | .processing request =>
      match request.command with
      | .init =>
          if request.channel = 0xffffffff then
            if request.length ≠ 8 then (p, none)
            else
              let newChannel := (p.lastChannel + 1) % 2 ^ 32
              let buf :=
                setByte (setByte (setByte (setByte (setByte
                  (writeBytes p.buffer 8 4 (fun k => be32byte newChannel k))
                  12 2) 13 0) 14 0) 15 0) 16 (0x01 + 0x04)
              let response : Response := { channel := 0xffffffff, command := request.command, length := 17 }
              startSending { p with lastChannel := newChannel, buffer := buf } response res
          else (p, none)
      | .ping => startSending p (Response.fromRequestAndSize request request.length) res
      | .wink => startSending p (Response.fromRequestAndSize request 0) res
      | .cbor => handleCbor p request info res
      | _ => (p, none)
  | _ => (p, none)

/-- Pipe::read_and_handle_packet from `pipe.rs`, for a full 64-byte packet
(read as the function `packet`, normalised to bytes). Initialisation packets
are only accepted while `Idle`; continuation packets only while `Receiving`.
In the `Receiving` arm the source destructures the message state by copy and
never writes the absorbed state back, so a matching non-final continuation
packet leaves `self.state` unchanged. -/
def readAndHandlePacket (p : Pipe) (packet : Nat → Nat) (info : List Nat) (res : WriteRes) :
    Pipe × Option (List Nat) :=
  let b := fun i => packet i % 256
  let channel := b 0 * 2 ^ 24 + b 1 * 2 ^ 16 + b 2 * 2 ^ 8 + b 3
  let isInitialization := 128 ≤ b 4
  if isInitialization then
    if p.state ≠ .idle then (p, none)
    else
      match Command.tryFrom (b 4 % 128) with
      | none => (p, none)
      | some command =>
          let length := b 5 * 256 + b 6
          let request : Request := { channel := channel, command := command, length := length }
          if length > MESSAGE_SIZE then (p, none)
          else if length > PACKET_SIZE - 7 then
            let buf := writeBytes p.buffer 0 (PACKET_SIZE - 7) (fun k => b (7 + k))
            ({ p with buffer := buf, state := .receiving request MessageState.deflt }, none)
          else
            let buf := writeBytes p.buffer 0 length (fun k => b (7 + k))
            dispatchRequest { p with buffer := buf, state := .processing request } info res
  else
    match p.state with
    | .receiving request messageState =>
        let sequence := b 4
        if sequence ≠ messageState.nextSequence then (p, none)
        else if channel ≠ request.channel then (p, none)
        else if messageState.transmitted + (PACKET_SIZE - 5) < request.length then
          let buf := writeBytes p.buffer messageState.transmitted (PACKET_SIZE - 5) (fun k => b (5 + k))
          ({ p with buffer := buf }, none)
        else
          let missing := request.length - messageState.transmitted
          let buf := writeBytes p.buffer messageState.transmitted missing (fun k => b (5 + k))
          dispatchRequest { p with buffer := buf, state := .processing request } info res
    | _ => (p, none)

/-- Drive `maybe_write_packet` with every endpoint write succeeding, for
`fuel` steps or until the pipe has nothing to send, collecting the emitted
packets. -/
def runSend : Nat → Pipe → List (List Nat) × Pipe
  | 0, p => ([], p)
  | fuel + 1, p =>
      match maybeWriteStep p WriteRes.ok64 with
      | (p', some pkt) =>
          let rest := runSend fuel p'
          (pkt :: rest.1, rest.2)
      | (p', none) => ([], p')

/-! ## The insecure RAM authenticator (`insecure.rs`)

The cryptographic primitives (SHA-256, SHA-512, Ed25519, P-256) are external
collaborators consumed as opaque functions (spec §1, §6); they are passed in
as a `Crypto` record of abstract functions. -/

/-- Opaque cryptographic collaborators (spec §6): hash functions, public-key
derivation from a seed, and signing (Ed25519 raw over a message; P-256
DER-wrapped over a prehashed digest). -/
structure Crypto where
  sha256 : List Nat → List Nat
  sha512 : List Nat → List Nat
  ed25519Public : List Nat → List Nat
  p256Public : List Nat → List Nat
  ed25519Sign : List Nat → List Nat → List Nat
  p256SignDer : List Nat → List Nat → List Nat

/-- Keypair from `insecure.rs`, keyed by the derivation seed. -/
inductive Keypair where
  | ed25519 (seed : List Nat)
  | p256 (seed : List Nat)
  deriving DecidableEq

/-- UTF-8 bytes of "user_id". -/
def strUserId : List Nat := [0x75, 0x73, 0x65, 0x72, 0x5f, 0x69, 0x64]

/-- UTF-8 bytes of "alg". -/
def strAlg : List Nat := [0x61, 0x6c, 0x67]

/-- UTF-8 bytes of "seed". -/
def strSeed : List Nat := [0x73, 0x65, 0x65, 0x64]

/-- serialize_salty_public_key from `insecure.rs`: COSE map
`{1: 1, 3: -8, -1: 6, -2: bytes(key)}` in that order. -/
def serializeSaltyPublicKey (key : List Nat) : List Nat :=
  cborMap
    [ (cborInt 1, cborInt 1), (cborInt 3, cborInt (-8))
    , (cborInt (-1), cborInt 6), (cborInt (-2), cborBytes key) ]

/-- serialize_nisty_public_key from `insecure.rs`: COSE map
`{1: 2, 3: -7, -1: 1, -2: bytes(x), -3: bytes(y)}` in that order, where `x`
and `y` are the two 32-byte halves of the raw public key. -/
def serializeNistyPublicKey (key : List Nat) : List Nat :=
  cborMap
    [ (cborInt 1, cborInt 2), (cborInt 3, cborInt (-7)), (cborInt (-1), cborInt 1)
    , (cborInt (-2), cborBytes (key.take 32)), (cborInt (-3), cborBytes (key.drop 32)) ]

/-- Keypair::serialize_public_key from `insecure.rs`. -/
def Keypair.serializePublicKey (c : Crypto) : Keypair → List Nat
  | .ed25519 seed => serializeSaltyPublicKey (c.ed25519Public seed)
  | .p256 seed => serializeNistyPublicKey (c.p256Public seed)

/-- CredentialInner from `insecure.rs`: `{user_id, alg, seed}`. -/
structure CredentialInner where
  userId : List Nat
  alg : Int
  seed : List Nat
  deriving DecidableEq

/-- Modelled from the spec: the credential id is the CBOR encoding of the
`CredentialInner` record (spec §3, "Credential id: CBOR-encoded record
`{user_id, alg, seed}`"); `Bytes::from_serialized` delegates to the external
`serde_cbor` codec, which encodes a derived struct as a map with its field
names as text keys, in declared order. -/
def serializeCredentialInner (inner : CredentialInner) : List Nat :=
  cborMap
    [ (cborText strUserId, cborBytes inner.userId)
    , (cborText strAlg, cborInt inner.alg)
    , (cborText strSeed, cborBytes inner.seed) ]

/-- Big-endian bytes of a `u16` length. -/
def be16 (n : Nat) : List Nat := [n / 256 % 256, n % 256]

/-- Big-endian bytes of a `u32`. -/
def be32 (n : Nat) : List Nat := [be32byte n 0, be32byte n 1, be32byte n 2, be32byte n 3]

/-- Modelled from the spec: AttestedCredentialData::serialize, whose defining
code is not under `src/` — spec §3:
`aaguid[16] || credIdLen[2 BE] || credId || cosePublicKey`. -/
def attestedCredentialDataBytes (aaguid credentialId cosePublicKey : List Nat) : List Nat :=
  aaguid ++ be16 credentialId.length ++ credentialId ++ cosePublicKey

/-- Modelled from the spec: AuthenticatorData::serialize, whose defining code
is not under `src/` — spec §3:
`rpIdHash[32] || flags[1] || signCount[4 BE] || attestedCredentialData?`. -/
def authenticatorDataBytes (rpIdHash : List Nat) (flags signCount : Nat)
    (attestedCredentialData : List Nat) : List Nat :=
  rpIdHash ++ [flags] ++ be32 signCount ++ attestedCredentialData

/-- Modelled from the spec: the CTAP error statuses surfaced by the
authenticator API (spec §7 taxonomy); the `Error` enum itself is not under
`src/`. -/
inductive CtapError where
  | invalidLength
  | unsupportedAlgorithm
  | unsupportedOption
  | noCredentials
  | other
  deriving DecidableEq

/-- PublicKeyCredentialParameters from `types.rs` (`alg: i32`, `type`). -/
structure PublicKeyCredentialParameters where
  alg : Int
  keyType : List Nat
  deriving DecidableEq

/-- Modelled from the spec: the options record read by `make_credential`
(spec §4.5 step 3 rejects `rk=true` and `uv=true`); the field is commented
out of `MakeCredentialParameters` in `types.rs`, so its defining code is not
under `src/`. -/
structure AuthenticatorOptions where
  rk : Option Bool
  up : Option Bool
  uv : Option Bool
  deriving DecidableEq

/-- MakeCredentialParameters from `types.rs`: clientDataHash, rp (by its id
bytes), user (by its id bytes), pubKeyCredParams, plus the options field
used by `insecure.rs`. -/
structure MakeCredentialParameters where
  clientDataHash : List Nat
  rpId : List Nat
  userId : List Nat
  pubKeyCredParams : List PublicKeyCredentialParameters
  options : Option AuthenticatorOptions
  deriving DecidableEq

/-- InsecureRamAuthenticator state from `insecure.rs`: the fixed aaguid and
the constant master secret `[37u8; 32]`. -/
structure InsecureRamAuthenticator where
  aaguid : List Nat
  masterSecret : List Nat
  deriving DecidableEq

/-- InsecureRamAuthenticator::default from `insecure.rs`. -/
def InsecureRamAuthenticator.deflt : InsecureRamAuthenticator :=
  { aaguid := insecureAaguid, masterSecret := List.replicate 32 37 }

/-- The parts of the attestation object that the claims inspect: the
credential record, its CBOR id, the COSE public key and the serialised
authenticator data. The packed attestation statement is built from
compile-time external material (`include_bytes` certificate and key, spec
§6) and is outside this embedding. -/
structure AttestationOutput where
  inner : CredentialInner
  credentialId : List Nat
  cosePublicKey : List Nat
  authData : List Nat
  deriving DecidableEq

/-- InsecureRamAuthenticator::make_credential from `insecure.rs`: validate
the client data hash length, scan `pub_key_cred_params` for algorithms `-7`
and `-8` (preferring Ed25519), reject options `rk=true` / `uv=true`, derive
the seed as `SHA-256(SHA-512(master_secret || rp.id || user.id))`, and build
credential id and authenticator data (`flags = 0x40`, `sign_count = 123`). -/
def makeCredential (c : Crypto) (a : InsecureRamAuthenticator)
    (params : MakeCredentialParameters) : Except CtapError AttestationOutput :=
  if params.clientDataHash.length ≠ 32 then .error .invalidLength
  else
    let supportedAlgorithm := params.pubKeyCredParams.any (fun param => param.alg == -7 || param.alg == -8)
    let eddsa := params.pubKeyCredParams.any (fun param => param.alg == -8)
    if ¬supportedAlgorithm then .error .unsupportedAlgorithm
    else if (match params.options with
             | some options => options.rk == some true
             | none => false) then .error .unsupportedOption
    else if (match params.options with
             | some options => options.uv == some true
             | none => false) then .error .unsupportedOption
    else
      let seed := c.sha256 (c.sha512 (a.masterSecret ++ params.rpId ++ params.userId))
      let keypair := if eddsa then Keypair.ed25519 seed else Keypair.p256 seed
      let credentialPublicKey := keypair.serializePublicKey c
      let inner : CredentialInner :=
        { userId := params.userId, alg := if eddsa then -8 else -7, seed := seed }
      let credentialId := serializeCredentialInner inner
      let acd := attestedCredentialDataBytes a.aaguid credentialId credentialPublicKey
      let authData := authenticatorDataBytes (c.sha256 params.rpId) 0x40 123 acd
      .ok { inner := inner, credentialId := credentialId
          , cosePublicKey := credentialPublicKey, authData := authData }

/-- PublicKeyCredentialDescriptor from `types.rs` (`type` and `id`). -/
structure PublicKeyCredentialDescriptor where
  keyType : List Nat
  id : List Nat
  deriving DecidableEq

/-- GetAssertionParameters (spec §3: rpId, clientDataHash, allowList). -/
structure GetAssertionParameters where
  rpId : List Nat
  clientDataHash : List Nat
  allowList : List PublicKeyCredentialDescriptor
  deriving DecidableEq

/-- The parts of the assertion response the claims inspect. -/
structure AssertionOutput where
  userId : List Nat
  authData : List Nat
  signature : List Nat
  credential : PublicKeyCredentialDescriptor
  deriving DecidableEq

/-- The observable outcome of `get_assertions`: a CTAP error status, a panic
(a failed `assert!` or `unwrap()`), or an assertion response. -/
inductive GAResult where
  | err (e : CtapError)
  | panicked
  | ok (r : AssertionOutput)
  deriving DecidableEq

/-- InsecureRamAuthenticator::get_assertions from `insecure.rs`: an empty
allow list yields `NoCredentials`; then `assert!(params.allow_list.len() == 1)`
panics on any longer list; the single credential id is CBOR-decoded (the
external deserialiser is passed in as `decode`, its `unwrap()` panics on
failure), the keypair is rebuilt from the seed, and the authenticator data
(`flags = 0x40`, `sign_count = 123`) is signed. -/
def getAssertions (c : Crypto) (decode : List Nat → Option CredentialInner)
    (a : InsecureRamAuthenticator) (params : GetAssertionParameters) : GAResult :=
  if params.allowList.length = 0 then .err .noCredentials
  else if params.allowList.length ≠ 1 then .panicked
  else
    let descriptor := params.allowList.getD 0 { keyType := [], id := [] }
    match decode descriptor.id with
    | none => .panicked
    | some inner =>
        let keypair := if inner.alg = -8 then Keypair.ed25519 inner.seed else Keypair.p256 inner.seed
        let acd := attestedCredentialDataBytes a.aaguid descriptor.id (keypair.serializePublicKey c)
        let authData := authenticatorDataBytes (c.sha256 params.rpId) 0x40 123 acd
        let signature :=
          if inner.alg = -8 then c.ed25519Sign inner.seed (authData ++ params.clientDataHash)
          else c.p256SignDer inner.seed (c.sha256 (authData ++ params.clientDataHash))
        .ok { userId := inner.userId, authData := authData
            , signature := signature, credential := descriptor }

/-! ## Concrete fixtures used by counterexamples and witnesses -/

/-- The all-zero message buffer. -/
def zeroBuf : Nat → Nat := fun _ => 0

/-- A pipe in `Idle` with a fresh (all-zero) buffer and no channel assigned. -/
def idlePipe : Pipe := { state := .idle, buffer := zeroBuf, lastChannel := 0 }

/-- A pipe mid-receive of a 200-byte `Ping` request on channel 1, exactly as
after the initialisation packet: `next_sequence = 0`, 57 bytes absorbed. -/
def recvPipe : Pipe :=
  { state := .receiving { channel := 1, command := .ping, length := 200 } MessageState.deflt
  , buffer := zeroBuf, lastChannel := 0 }

/-- A continuation packet on channel 1 with sequence byte 0. -/
def contPk0 : Nat → Nat := fun i => if i = 3 then 1 else 0

/-- A continuation packet on channel 1 with sequence byte 5. -/
def contPkSeq5 : Nat → Nat := fun i => if i = 3 then 1 else if i = 4 then 5 else 0

/-- A pipe holding a buffered response of length 5 (fits in one packet),
first packet not yet sent. -/
def shortRespPipe : Pipe :=
  { state := .responsePending { channel := 1, command := .ping, length := 5 }
  , buffer := zeroBuf, lastChannel := 0 }

/-- A pipe that has just reassembled a `Cancel` request. -/
def cancelPipe : Pipe :=
  { state := .processing { channel := 1, command := .cancel, length := 0 }
  , buffer := zeroBuf, lastChannel := 0 }

/-! ## Claim C1 -/

/-- Claim C1 (code bug): with the pipe in `Receiving` for a request of
declared length 200 and `message_state = {next_sequence 0, transmitted 57}`,
a matching continuation packet with sequence byte 0 for which
`57 + 59 < 200` leaves `self.state` completely unchanged — the source
mutates a copied-out `MessageState` and never writes it back — whereas the
claim (and the intent documented on `absorb_packet`) requires
`next_sequence = 1` and `bytes_absorbed = 116`. -/
theorem c1_continuation_state_not_advanced :
    (readAndHandlePacket recvPipe contPk0 [] WriteRes.ok64).1.state =
      .receiving { channel := 1, command := .ping, length := 200 }
        { nextSequence := 0, transmitted := 57 } ∧
    (readAndHandlePacket recvPipe contPk0 [] WriteRes.ok64).1.state ≠
      .receiving { channel := 1, command := .ping, length := 200 }
        { nextSequence := 1, transmitted := 116 } := by
  constructor
  · decide
  · decide

/-! ## Claim C2 -/

/-- Claim C2, counterexample: a continuation packet with sequence byte 5
while sequence 0 is expected does not return the pipe to `Idle` — the
source just drops the packet and stays in `Receiving`. -/
theorem c2_mismatch_counterexample :
    (readAndHandlePacket recvPipe contPkSeq5 [] WriteRes.ok64).1.state ≠ State.idle := by
  decide

/-- Claim C2, amended: a continuation packet received in `Receiving` whose
sequence byte differs from `next_sequence`, or whose channel differs from
the channel of the request being received, is ignored: the pipe is returned
unchanged (it remains in `Receiving` with the same message state, not
`Idle`) and no response packet is emitted. -/
theorem c2_mismatch_ignored (p : Pipe) (request : Request) (messageState : MessageState)
    (packet : Nat → Nat) (info : List Nat) (res : WriteRes)
    (hstate : p.state = .receiving request messageState)
    (hcont : packet 4 % 256 < 128)
    (hmis : packet 4 % 256 ≠ messageState.nextSequence ∨
      packet 0 % 256 * 2 ^ 24 + packet 1 % 256 * 2 ^ 16 + packet 2 % 256 * 2 ^ 8 + packet 3 % 256
        ≠ request.channel) :
    readAndHandlePacket p packet info res = (p, none) := by
  simp only [readAndHandlePacket, hstate]
  rw [if_neg (by omega : ¬ 128 ≤ packet 4 % 256)]
  rcases hmis with hseq | hchan
  · rw [if_pos hseq]
  · by_cases hseq : packet 4 % 256 ≠ messageState.nextSequence
    · rw [if_pos hseq]
    · rw [if_neg hseq, if_pos hchan]

/-- Claim C2, witness: the amended theorem applied to the concrete
wrong-sequence packet. -/
theorem c2_mismatch_witness :
    readAndHandlePacket recvPipe contPkSeq5 [] WriteRes.ok64 = (recvPipe, none) :=
  c2_mismatch_ignored recvPipe _ _ contPkSeq5 [] WriteRes.ok64 rfl (by decide)
    (Or.inl (by decide))

/-! ## Claim C3 -/

/-- Claim C3 (code bug): with a buffered response of length 5 ≤ 57 pending,
a `WouldBlock` from the write endpoint leaves the pipe in `Idle`, not in
`ResponsePending` — the source assigns `self.state = State::Idle` before
attempting the write whenever the response fits in one packet, so the
response is dropped instead of being retransmitted on a later poll
(contradicting the claim and the source's own "can't write, try later"
comment on the `WouldBlock` arm). -/
theorem c3_wouldblock_short_response_lost :
    (maybeWriteStep shortRespPipe WriteRes.wouldBlock).1.state = State.idle ∧
    (maybeWriteStep shortRespPipe WriteRes.wouldBlock).2 = none := by
  constructor
  · decide
  · rfl

/-! ## Claim C4 -/

/-- Claim C4, counterexample: dispatching a reassembled `Cancel` request
leaves the pipe in `Processing` (the source's catch-all arm does nothing),
contradicting the claim that the pipe always transitions to `Idle`,
`ResponsePending` or `Sending` — and in particular that `Cancel` returns it
to `Idle`. -/
theorem c4_cancel_counterexample :
    (dispatchRequest cancelPipe [] WriteRes.ok64).1.state =
      .processing { channel := 1, command := .cancel, length := 0 } ∧
    (dispatchRequest cancelPipe [] WriteRes.ok64).1.state ≠ State.idle := by
  constructor
  · decide
  · decide

/-- The requests `dispatch_request` actually answers: `Init` on the
broadcast channel with length 8, `Ping`, `Wink`, and `Cbor` whose first
payload byte decodes to the `GetInfo` operation. -/
def dispatchHandled (request : Request) (buf : Nat → Nat) : Prop :=
  (request.command = .init ∧ request.channel = 0xffffffff ∧ request.length = 8)
  ∨ request.command = .ping
  ∨ request.command = .wink
  ∨ (request.command = .cbor ∧ 1 ≤ request.length ∧
      Operation.tryFrom (buf 0 % 256) = some .getInfo)

/-- The pipe has left `Processing` for one of the three send-side states. -/
def leftProcessing (s : State) : Prop :=
  s = .idle ∨ (∃ r, s = .responsePending r) ∨ (∃ r m, s = .sending r m)

/-- After `start_sending`, the pipe is in `Idle`, `ResponsePending` or
`Sending`, whatever the write outcome. -/
theorem startSending_leftProcessing (p : Pipe) (r : Response) (res : WriteRes) :
    leftProcessing (startSending p r res).1.state := by
  unfold leftProcessing
  cases res
  · by_cases hfit : 7 + r.length ≤ PACKET_SIZE
    · exact Or.inl (by simp [startSending, maybeWriteStep, if_pos hfit])
    · exact Or.inr (Or.inr ⟨r, MessageState.deflt,
        by simp [startSending, maybeWriteStep, if_neg hfit]⟩)
  · by_cases hfit : 7 + r.length ≤ PACKET_SIZE
    · exact Or.inl (by simp [startSending, maybeWriteStep, if_pos hfit])
    · exact Or.inr (Or.inl ⟨r, by simp [startSending, maybeWriteStep, if_neg hfit]⟩)

/-- Claim C4, amended: after dispatch of a reassembled request, the pipe has
left `Processing` (for `Idle`, `ResponsePending` or `Sending`) exactly for
the handled requests — `Init` on the broadcast channel with length 8,
`Ping`, `Wink`, and `Cbor` with a non-empty payload whose operation byte is
`GetInfo`; for every other command (including `Cancel`, `Msg`, `Lock`,
`KeepAlive`, `Error`, vendor commands, `Init` with length ≠ 8 or on a
non-broadcast channel, and `Cbor` with any other operation) the pipe is
returned unchanged, still in `Processing`. -/
theorem c4_dispatch_characterisation (p : Pipe) (request : Request) (info : List Nat)
    (res : WriteRes) (hstate : p.state = .processing request) :
    (dispatchHandled request p.buffer → leftProcessing (dispatchRequest p info res).1.state) ∧
    (¬ dispatchHandled request p.buffer → dispatchRequest p info res = (p, none)) := by
  constructor
  · intro hh
    simp only [dispatchRequest, hstate]
    rcases hh with ⟨hc, hch, hl⟩ | hc | hc | ⟨hc, hl, hop⟩
    · simp only [hc]
      rw [if_pos hch, if_neg (by omega : ¬ request.length ≠ 8)]
      exact startSending_leftProcessing _ _ _
    · simp only [hc]
      exact startSending_leftProcessing _ _ _
    · simp only [hc]
      exact startSending_leftProcessing _ _ _
    · simp only [hc, handleCbor]
      rw [if_neg (by omega : ¬ request.length < 1), hop]
      exact startSending_leftProcessing _ _ _
  · intro hh
    have hni : ¬ (request.command = .init ∧ request.channel = 0xffffffff ∧ request.length = 8) :=
      fun h => hh (Or.inl h)
    have hnp : request.command ≠ .ping := fun h => hh (Or.inr (Or.inl h))
    have hnw : request.command ≠ .wink := fun h => hh (Or.inr (Or.inr (Or.inl h)))
    have hnc : ¬ (request.command = .cbor ∧ 1 ≤ request.length ∧
        Operation.tryFrom (p.buffer 0 % 256) = some .getInfo) :=
      fun h => hh (Or.inr (Or.inr (Or.inr h)))
    simp only [dispatchRequest, hstate]
    cases hcmd : request.command
    case ping => exact absurd hcmd hnp
    case wink => exact absurd hcmd hnw
    case init =>
      simp only [hcmd]
      by_cases hch : request.channel = 0xffffffff
      · have hl : request.length ≠ 8 := fun hl => hni ⟨hcmd, hch, hl⟩
        rw [if_pos hch, if_pos hl]
      · rw [if_neg hch]
    case cbor =>
      simp only [hcmd, handleCbor]
      by_cases hl : request.length < 1
      · rw [if_pos hl]
      · rw [if_neg hl]
        rcases hopv : Operation.tryFrom (p.buffer 0 % 256) with _ | op
        · simp only [hopv]
        · rcases op with _ | _ | _ | _ | _ | _ | code
          · simp only [hopv]
          · simp only [hopv]
          · simp only [hopv]
          · exact absurd ⟨hcmd, by omega, hopv⟩ hnc
          · simp only [hopv]
          · simp only [hopv]
          · simp only [hopv]
    all_goals simp only [hcmd]

/-- Claim C4, witness for the amended theorem: a `Ping` request leaves
`Processing`, a `Cancel` request does not. -/
theorem c4_dispatch_witness :
    leftProcessing (dispatchRequest
      { state := .processing { channel := 1, command := .ping, length := 0 }
      , buffer := zeroBuf, lastChannel := 0 } [] WriteRes.ok64).1.state ∧
    dispatchRequest cancelPipe [] WriteRes.ok64 = (cancelPipe, none) :=
  ⟨(c4_dispatch_characterisation _ _ [] WriteRes.ok64 rfl).1 (Or.inr (Or.inl rfl)),
   (c4_dispatch_characterisation cancelPipe _ [] WriteRes.ok64 rfl).2
     (by intro h; rcases h with ⟨h, _⟩ | h | h | ⟨h, _⟩ <;> simp [cancelPipe] at h)⟩

/-! ## Claim C10 -/

/-- Claim C10: `get_assertions` panics (fails `assert!(len == 1)`) on every
allow list with two or more entries; an empty allow list yields the
`NoCredentials` error; and an assertion response is only ever returned when
the allow list has exactly one entry — a strictly stronger panic-free
precondition than the non-emptiness the spec requires. -/
theorem c10_allowlist_guard (c : Crypto) (decode : List Nat → Option CredentialInner)
    (a : InsecureRamAuthenticator) (params : GetAssertionParameters) :
    (2 ≤ params.allowList.length → getAssertions c decode a params = .panicked) ∧
    (params.allowList.length = 0 → getAssertions c decode a params = .err .noCredentials) ∧
    (∀ r, getAssertions c decode a params = .ok r → params.allowList.length = 1) := by
  refine ⟨fun h2 => ?_, fun h0 => ?_, fun r hok => ?_⟩
  · unfold getAssertions
    rw [if_neg (by omega), if_pos (by omega)]
  · unfold getAssertions
    rw [if_pos h0]
  · by_contra hne
    unfold getAssertions at hok
    rcases Nat.eq_zero_or_pos params.allowList.length with h0 | hpos
    · rw [if_pos h0] at hok
      exact GAResult.noConfusion hok
    · rw [if_neg (by omega), if_pos (by omega)] at hok
      exact GAResult.noConfusion hok

/-- Claim C10, witness: a two-entry allow list panics, an empty one errors. -/
theorem c10_allowlist_witness :
    getAssertions { sha256 := fun _ => [], sha512 := fun _ => [], ed25519Public := fun _ => []
                  , p256Public := fun _ => [], ed25519Sign := fun _ _ => []
                  , p256SignDer := fun _ _ => [] }
      (fun _ => none) InsecureRamAuthenticator.deflt
      { rpId := [], clientDataHash := []
      , allowList := [{ keyType := [], id := [] }, { keyType := [], id := [] }] } =
      GAResult.panicked :=
  (c10_allowlist_guard _ _ _ _).1 (by decide)

/-! ## Claims C8 and C9 -/

/-- A cryptographic collaborator with fixed-size zero outputs, used to
instantiate the opaque primitives in witnesses. -/
def trivialCrypto : Crypto :=
  { sha256 := fun _ => List.replicate 32 0
  , sha512 := fun _ => List.replicate 64 0
  , ed25519Public := fun _ => List.replicate 32 0
  , p256Public := fun _ => List.replicate 64 0
  , ed25519Sign := fun _ _ => List.replicate 64 0
  , p256SignDer := fun _ _ => List.replicate 72 0 }

/-- Well-formed make_credential parameters offering both ES256 and EdDSA. -/
def mcParamsBoth : MakeCredentialParameters :=
  { clientDataHash := List.replicate 32 1
  , rpId := [0x65, 0x78]
  , userId := [0x61]
  , pubKeyCredParams := [{ alg := -7, keyType := [] }, { alg := -8, keyType := [] }]
  , options := none }

/-- Claim C8: `make_credential` rejects a client data hash that is not 32
bytes with `InvalidLength`; with a well-sized hash it rejects parameter
lists offering neither `-7` nor `-8` with `UnsupportedAlgorithm`; past
those checks it rejects options carrying `rk=true` or `uv=true` with
`UnsupportedOption`; and when both `-7` and `-8` are offered and the checks
pass, the generated credential uses Ed25519 (`alg = -8`). -/
theorem c8_make_credential_checks (c : Crypto) (a : InsecureRamAuthenticator) :
    (∀ params : MakeCredentialParameters, params.clientDataHash.length ≠ 32 →
      makeCredential c a params = .error .invalidLength) ∧
    (∀ params : MakeCredentialParameters, params.clientDataHash.length = 32 →
      (∀ param ∈ params.pubKeyCredParams, param.alg ≠ -7 ∧ param.alg ≠ -8) →
      makeCredential c a params = .error .unsupportedAlgorithm) ∧
    (∀ (params : MakeCredentialParameters) (options : AuthenticatorOptions),
      params.clientDataHash.length = 32 →
      (∃ param ∈ params.pubKeyCredParams, param.alg = -7 ∨ param.alg = -8) →
      params.options = some options →
      (options.rk = some true ∨ options.uv = some true) →
      makeCredential c a params = .error .unsupportedOption) ∧
    (∀ params : MakeCredentialParameters, params.clientDataHash.length = 32 →
      (∃ param ∈ params.pubKeyCredParams, param.alg = -7) →
      (∃ param ∈ params.pubKeyCredParams, param.alg = -8) →
      (match params.options with
       | some options => options.rk ≠ some true ∧ options.uv ≠ some true
       | none => True) →
      ∃ out, makeCredential c a params = .ok out ∧ out.inner.alg = -8) := by
  refine ⟨fun params hlen => ?_, fun params hlen hnone => ?_,
    fun params options hlen hsupp hopt hbad => ?_, fun params hlen h7 h8 hopt => ?_⟩
  · simp only [makeCredential, if_pos hlen]
  · have hany : params.pubKeyCredParams.any
        (fun param => param.alg == -7 || param.alg == -8) = false := by
      rw [List.any_eq_false]
      intro param hmem
      rcases hnone param hmem with ⟨h7, h8⟩
      simp [h7, h8]
    simp only [makeCredential, if_neg (by omega : ¬ params.clientDataHash.length ≠ 32), hany]
    simp
  · have hany : params.pubKeyCredParams.any
        (fun param => param.alg == -7 || param.alg == -8) = true := by
      rw [List.any_eq_true]
      rcases hsupp with ⟨param, hmem, hpm⟩
      exact ⟨param, hmem, by rcases hpm with h | h <;> simp [h]⟩
    simp only [makeCredential, if_neg (by omega : ¬ params.clientDataHash.length ≠ 32), hany,
      Bool.not_true, hopt]
    rcases hbad with hrk | huv
    · simp [hrk]
    · simp [huv]
  · have hne : ¬ params.clientDataHash.length ≠ 32 := by omega
    have hany : params.pubKeyCredParams.any
        (fun param => param.alg == -7 || param.alg == -8) = true := by
      rw [List.any_eq_true]
      rcases h7 with ⟨param, hmem, hpm⟩
      exact ⟨param, hmem, by simp [hpm]⟩
    have heddsa : params.pubKeyCredParams.any (fun param => param.alg == -8) = true := by
      rw [List.any_eq_true]
      rcases h8 with ⟨param, hmem, hpm⟩
      exact ⟨param, hmem, by simp [hpm]⟩
    have hrk : (match params.options with
        | some options => options.rk == some true
        | none => false) = false := by
      rcases hov : params.options with _ | options
      · rfl
      · rw [hov] at hopt
        simpa using hopt.1
    have huv : (match params.options with
        | some options => options.uv == some true
        | none => false) = false := by
      rcases hov : params.options with _ | options
      · rfl
      · rw [hov] at hopt
        simpa using hopt.2
    rcases hres : makeCredential c a params with e | out
    · exfalso
      simp only [makeCredential, if_neg hne, hany, hrk, huv, heddsa] at hres
      simp at hres
    · refine ⟨out, rfl, ?_⟩
      simp only [makeCredential, if_neg hne, hany, hrk, huv, heddsa] at hres
      simp only [Bool.not_true, Bool.false_eq_true, if_false, if_true, reduceIte] at hres
      cases hres
      rfl

/-- Claim C8, witness: the four checks at concrete parameters. -/
theorem c8_make_credential_witness :
    makeCredential trivialCrypto InsecureRamAuthenticator.deflt
        { mcParamsBoth with clientDataHash := [] } = .error .invalidLength ∧
    (∃ out, makeCredential trivialCrypto InsecureRamAuthenticator.deflt mcParamsBoth = .ok out ∧
      out.inner.alg = -8) :=
  ⟨(c8_make_credential_checks trivialCrypto InsecureRamAuthenticator.deflt).1 _ (by decide),
   (c8_make_credential_checks trivialCrypto InsecureRamAuthenticator.deflt).2.2.2 mcParamsBoth
     (by decide) ⟨{ alg := -7, keyType := [] }, by decide, by decide⟩
     ⟨{ alg := -8, keyType := [] }, by decide, by decide⟩ trivial⟩

/-- The attestation output actually produced at the concrete parameters
`mcParamsBoth` with the trivial crypto collaborator. -/
def mcOutBoth : AttestationOutput :=
  match makeCredential trivialCrypto InsecureRamAuthenticator.deflt mcParamsBoth with
  | .ok out => out
  | .error _ => { inner := { userId := [], alg := 0, seed := [] }
                , credentialId := [], cosePublicKey := [], authData := [] }

/-- Claim C9, counterexample: at concrete valid parameters the flags byte of
the returned `authData` (the byte following the 32-byte rp id hash) is
`0x40`, not `0x41` — `insecure.rs` sets `flags: 0x40` (attested only, no
user-present bit) — and the sign count bytes are the constant
`123u32` (not a monotonically increasing counter). -/
theorem c9_flags_counterexample :
    makeCredential trivialCrypto InsecureRamAuthenticator.deflt mcParamsBoth = .ok mcOutBoth ∧
    mcOutBoth.authData.getD 32 0 = 0x40 ∧ mcOutBoth.authData.getD 32 0 ≠ 0x41 ∧
    mcOutBoth.authData.getD 33 0 = 0 ∧ mcOutBoth.authData.getD 34 0 = 0 ∧
    mcOutBoth.authData.getD 35 0 = 0 ∧ mcOutBoth.authData.getD 36 0 = 123 := by
  refine ⟨by rfl, by decide, by decide, by decide, by decide, by decide, by decide⟩

/-- Claim C9, amended: every successful `make_credential` returns an
`authData` that is the exact concatenation
`SHA-256(rp.id) || flags || signCount[4 BE] || attestedCredentialData`
with `flags = 0x40` (attested bit only) and `signCount` the constant `123`,
where `attestedCredentialData = aaguid || credIdLen[2 BE] || credId ||
cosePublicKey`. -/
theorem c9_authdata_layout (c : Crypto) (a : InsecureRamAuthenticator)
    (params : MakeCredentialParameters) (out : AttestationOutput)
    (hok : makeCredential c a params = .ok out) :
    out.authData = c.sha256 params.rpId ++ [0x40] ++ [0, 0, 0, 123] ++
      (a.aaguid ++ be16 out.credentialId.length ++ out.credentialId ++ out.cosePublicKey) := by
  simp only [makeCredential] at hok
  split at hok
  · exact Except.noConfusion hok
  · split at hok
    · exact Except.noConfusion hok
    · split at hok
      · exact Except.noConfusion hok
      · split at hok
        · exact Except.noConfusion hok
        · cases hok
          rfl

/-- Claim C9, witness for the amended theorem: the layout at the concrete
attestation output `mcOutBoth`. -/
theorem c9_authdata_witness :
    mcOutBoth.authData = trivialCrypto.sha256 mcParamsBoth.rpId ++ [0x40] ++ [0, 0, 0, 123] ++
      (InsecureRamAuthenticator.deflt.aaguid ++ be16 mcOutBoth.credentialId.length ++
        mcOutBoth.credentialId ++ mcOutBoth.cosePublicKey) :=
  c9_authdata_layout trivialCrypto InsecureRamAuthenticator.deflt mcParamsBoth mcOutBoth (by rfl)

/-! ## Claim C7 -/

/-- A pipe that has just reassembled a one-byte `Cbor` request whose
operation byte is `0x04` (`authenticatorGetInfo`). -/
def cborGetInfoPipe : Pipe :=
  { state := .processing { channel := 1, command := .cbor, length := 1 }
  , buffer := fun _ => 4, lastChannel := 0 }

/-- The message buffer after `handle_cbor` has written the `get_info`
response: status byte 0 at index 0, then the encoded `AuthenticatorInfo`. -/
def getInfoBuffer (buf : Nat → Nat) : Nat → Nat :=
  writeBytes (setByte buf 0 0) 1 getInfoEncoded.length (fun k => getInfoEncoded.getD k 0)

/-- Claim C7: the `authenticatorGetInfo` response payload is the
deterministic constant byte string
`00 A4 01 81 68 "FIDO_2_0" 03 50 <aaguid> 04 A3 "rk" F4 "up" F5 "plat" F4
05 19 1D B9` (51 bytes, canonical order, absent fields omitted), and
`handle_cbor` on any `Cbor` request with operation byte `0x04` stores
exactly these bytes at the start of the message buffer (and, the response
fitting in a single packet, finishes in `Idle`). -/
theorem c7_getinfo_payload :
    getInfoResponsePayload =
      [0x00, 0xa4,
       0x01, 0x81, 0x68, 0x46, 0x49, 0x44, 0x4f, 0x5f, 0x32, 0x5f, 0x30,
       0x03, 0x50, 0x41, 0x41, 0x47, 0x55, 0x49, 0x44,
       0x30, 0x31, 0x32, 0x33, 0x34, 0x35, 0x36, 0x37, 0x38, 0x39,
       0x04, 0xa3, 0x62, 0x72, 0x6b, 0xf4, 0x62, 0x75, 0x70, 0xf5,
       0x64, 0x70, 0x6c, 0x61, 0x74, 0xf4,
       0x05, 0x19, 0x1d, 0xb9] ∧
    (∀ (p : Pipe) (ch len : Nat) (res : WriteRes),
      1 ≤ len → p.buffer 0 % 256 = 4 →
      (handleCbor p { channel := ch, command := .cbor, length := len } getInfoEncoded res).1.state
        = State.idle ∧
      ∀ k, k < 51 →
        (handleCbor p { channel := ch, command := .cbor, length := len } getInfoEncoded res).1.buffer k
          = getInfoResponsePayload.getD k 0) := by
  have hlen50 : getInfoEncoded.length = 50 := by rfl
  constructor
  · decide
  · intro p ch len res hlen hop
    have hred : handleCbor p { channel := ch, command := .cbor, length := len } getInfoEncoded res =
        startSending { state := p.state, buffer := getInfoBuffer p.buffer, lastChannel := p.lastChannel }
          { channel := ch, command := .cbor, length := 1 + getInfoEncoded.length } res := by
      simp only [handleCbor, if_neg (by omega : ¬ len < 1), hop]
      rfl
    rw [hred]
    constructor
    · cases res <;>
        · simp only [startSending, maybeWriteStep]
          rw [hlen50]
          norm_num [PACKET_SIZE]
    · intro k hk
      have hbuf : (startSending
          { state := p.state, buffer := getInfoBuffer p.buffer, lastChannel := p.lastChannel }
          { channel := ch, command := .cbor, length := 1 + getInfoEncoded.length } res).1.buffer =
          getInfoBuffer p.buffer := by
        unfold startSending maybeWriteStep
        cases res <;> rfl
      rw [hbuf]
      by_cases hk0 : k = 0
      · subst hk0
        simp [getInfoBuffer, writeBytes, setByte, getInfoResponsePayload]
      · obtain ⟨j, rfl⟩ : ∃ j, k = j + 1 := ⟨k - 1, by omega⟩
        have hin : 1 ≤ j + 1 ∧ j + 1 < 1 + getInfoEncoded.length := ⟨by omega, by omega⟩
        simp only [getInfoBuffer, writeBytes, if_pos hin, Nat.add_sub_cancel,
          getInfoResponsePayload, List.getD_cons_succ]

/-- Claim C7, witness: the pipe-level fact at the concrete pipe whose buffer
holds the operation byte `0x04`. -/
theorem c7_getinfo_witness :
    (handleCbor cborGetInfoPipe { channel := 1, command := .cbor, length := 1 }
        getInfoEncoded WriteRes.ok64).1.state = State.idle :=
  (c7_getinfo_payload.2 cborGetInfoPipe 1 1 WriteRes.ok64 (by decide) (by rfl)).1

/-! ## Claim C5 -/

/-- The message buffer after the broadcast-`Init` branch of
`dispatch_request` has run: nonce from the request packet at `0..8`, the
new channel id big-endian at `8..12`, protocol version 2, device version
`0 0 0`, capabilities `0x05`. -/
def initRespBuffer (buf packet : Nat → Nat) (newChannel : Nat) : Nat → Nat :=
  setByte (setByte (setByte (setByte (setByte
    (writeBytes (writeBytes buf 0 8 (fun k => packet (7 + k) % 256))
      8 4 (fun k => be32byte newChannel k))
    12 2) 13 0) 14 0) 15 0) 16 (0x01 + 0x04)
/-- A broadcast `Init` packet: channel `0xFFFFFFFF`, command byte `0x86`,
declared length 8, nonce bytes `7..=14` (here the byte at index `i` is `i`). -/
def initBroadcastPk : Nat → Nat := fun i =>
  if i < 4 then 255 else if i = 4 then 0x86 else if i = 6 then 8
  else if 7 ≤ i ∧ i < 15 then i else 0

/-- Claim C5: a broadcast `Init` initialisation packet of declared length 8
received while `Idle` (with the next channel id still available) makes the
pipe assign the new non-zero, non-broadcast channel id `last_channel + 1`
and answer on channel `0xFFFFFFFF` with command `Init` and a 17-byte
payload: the 8 nonce bytes unchanged, the new channel id big-endian, the
CTAPHID protocol version 2, device version bytes `0 0 0`, and the
capabilities byte `0x05 = WINK | CBOR`; the rest of the 64-byte packet is
zero and the pipe returns to `Idle`. -/
theorem c5_init_broadcast (p : Pipe) (packet : Nat → Nat) (info : List Nat)
    (hidle : p.state = .idle)
    (hch : p.lastChannel + 1 < 0xffffffff)
    (h0 : packet 0 % 256 = 255) (h1 : packet 1 % 256 = 255)
    (h2 : packet 2 % 256 = 255) (h3 : packet 3 % 256 = 255)
    (h4 : packet 4 % 256 = 0x86) (h5 : packet 5 % 256 = 0) (h6 : packet 6 % 256 = 8) :
    (readAndHandlePacket p packet info WriteRes.ok64).1.state = State.idle ∧
    (readAndHandlePacket p packet info WriteRes.ok64).1.lastChannel = p.lastChannel + 1 ∧
    0 < p.lastChannel + 1 ∧ p.lastChannel + 1 < 0xffffffff ∧
    (readAndHandlePacket p packet info WriteRes.ok64).2 =
      some ((List.range 64).map (fun i =>
        if i < 4 then 255
        else if i = 4 then 0x86
        else if i = 5 then 0
        else if i = 6 then 17
        else if i < 15 then packet i % 256
        else if i < 19 then be32byte (p.lastChannel + 1) (i - 15)
        else if i = 19 then 2
        else if i < 23 then 0
        else if i = 23 then 5
        else 0)) := by
  have hmod : (p.lastChannel + 1) % 2 ^ 32 = p.lastChannel + 1 := Nat.mod_eq_of_lt (by omega)
  have hred : readAndHandlePacket p packet info WriteRes.ok64 =
      ({ state := State.idle
       , buffer := initRespBuffer p.buffer packet (p.lastChannel + 1)
       , lastChannel := p.lastChannel + 1 },
       some (initPacket { channel := 0xffffffff, command := .init, length := 17 }
         (initRespBuffer p.buffer packet (p.lastChannel + 1)))) := by
    simp only [readAndHandlePacket, h0, h1, h2, h3, h4, h5, h6, hidle]
    norm_num [Command.tryFrom, MESSAGE_SIZE, PACKET_SIZE]
    simp only [dispatchRequest, startSending, maybeWriteStep, hmod]
    norm_num [PACKET_SIZE, initRespBuffer]
  rw [hred]
  refine ⟨rfl, rfl, by omega, hch, ?_⟩
  apply congrArg some
  simp only [initPacket, PACKET_SIZE]
  apply List.map_congr_left
  intro i hi
  rw [List.mem_range] at hi
  interval_cases i <;>
    simp +arith +decide [initPacketByte, initRespBuffer, writeBytes, setByte, be32byte,
      Command.intoU8, PACKET_SIZE]

/-- Claim C5, witness: the broadcast `Init` handshake at the fresh pipe,
which assigns channel id 1. -/
theorem c5_init_broadcast_witness :
    (readAndHandlePacket idlePipe initBroadcastPk [] WriteRes.ok64).1.state = State.idle ∧
    (readAndHandlePacket idlePipe initBroadcastPk [] WriteRes.ok64).1.lastChannel = 1 :=
  ⟨(c5_init_broadcast idlePipe initBroadcastPk [] rfl (by decide) (by decide) (by decide)
      (by decide) (by decide) (by decide) (by decide) (by decide)).1,
   (c5_init_broadcast idlePipe initBroadcastPk [] rfl (by decide) (by decide) (by decide)
      (by decide) (by decide) (by decide) (by decide) (by decide)).2.1⟩

/-! ## Claim C6 -/

/-- The list of continuation packets emitted from a `Sending` state onward
when every endpoint write succeeds; the branch condition mirrors the
`last_packet` test of `maybe_write_packet`. -/
def contPacketsSpec (r : Response) (m : MessageState) (buf : Nat → Nat) : List (List Nat) :=
  if 5 + (r.length - m.transmitted) ≤ PACKET_SIZE then [contPacket r m buf]
  else contPacket r m buf :: contPacketsSpec r m.absorbPacket buf
termination_by r.length - m.transmitted
decreasing_by
  simp only [MessageState.absorbPacket, PACKET_SIZE] at *
  omega

/-- Bytes actually used (header plus payload) in the j-th packet of a
response of total payload length `len`: the initialisation packet carries a
7-byte header and `min len 57` payload bytes, the j-th continuation packet
a 5-byte header and `min 59 (len - 57 - 59(j-1))` payload bytes. -/
def usedLength (len j : Nat) : Nat :=
  if j = 0 then 7 + min len (PACKET_SIZE - 7)
  else 5 + min (PACKET_SIZE - 5) (len - ((PACKET_SIZE - 7) + (PACKET_SIZE - 5) * (j - 1)))

/-- Element `i < n` of `(List.range n).map f` is `f i`. -/
theorem getD_map_range (f : Nat → Nat) (n i : Nat) (hi : i < n) :
    ((List.range n).map f).getD i 0 = f i := by
  rw [List.getD_eq_getElem?_getD, List.getElem?_map, List.getElem?_range hi]
  rfl

/-- `runSend` does nothing from `Idle`. -/
theorem runSend_idle (fuel : Nat) (buf : Nat → Nat) (lc : Nat) :
    runSend fuel { state := .idle, buffer := buf, lastChannel := lc } =
      ([], { state := .idle, buffer := buf, lastChannel := lc }) := by
  cases fuel <;> rfl

/-- The sequence byte of a continuation packet is reduced mod 256, so a
pre-reduced `next_sequence` yields the same packet. -/
theorem contPacket_mod (r : Response) (n t : Nat) (buf : Nat → Nat) :
    contPacket r { nextSequence := n % 256, transmitted := t } buf =
      contPacket r { nextSequence := n, transmitted := t } buf := by
  unfold contPacket
  apply List.map_congr_left
  intro i _
  unfold contPacketByte
  by_cases hlt : i < 4
  · simp [hlt]
  · by_cases h4 : i = 4
    · simp only [if_neg hlt, if_pos h4]
      omega
    · simp [hlt, h4]

/-- One step of `runSend` when the write attempt emits a packet. -/
theorem runSend_step (fuel : Nat) (p p' : Pipe) (pkt : List Nat)
    (h : maybeWriteStep p WriteRes.ok64 = (p', some pkt)) :
    runSend (fuel + 1) p = (pkt :: (runSend fuel p').1, (runSend fuel p').2) := by
  simp only [runSend, h]

/-- Driving `maybe_write_packet` from `Sending` with every write accepted
emits exactly the packets of `contPacketsSpec` and ends in `Idle`. -/
theorem runSend_sending (fuel : Nat) : ∀ (r : Response) (m : MessageState) (buf : Nat → Nat)
    (lc : Nat), m.transmitted < r.length →
    (r.length - m.transmitted + 58) / 59 ≤ fuel →
    runSend fuel { state := .sending r m, buffer := buf, lastChannel := lc } =
      (contPacketsSpec r m buf, { state := .idle, buffer := buf, lastChannel := lc }) := by
  induction fuel with
  | zero =>
    intro r m buf lc ht hf
    exfalso
    omega
  | succ fuel ih =>
    intro r m buf lc ht hf
    by_cases hlast : 5 + (r.length - m.transmitted) ≤ PACKET_SIZE
    · rw [runSend_step fuel _ _ _ (by simp only [maybeWriteStep, if_pos hlast]; rfl)]
      rw [runSend_idle]
      unfold contPacketsSpec
      rw [if_pos hlast]
    · rw [runSend_step fuel _ _ _ (by simp only [maybeWriteStep, if_neg hlast]; rfl)]
      have hp : PACKET_SIZE = 64 := rfl
      have ht' : m.absorbPacket.transmitted < r.length := by
        simp only [MessageState.absorbPacket, PACKET_SIZE]
        omega
      have hf' : (r.length - m.absorbPacket.transmitted + 58) / 59 ≤ fuel := by
        simp only [MessageState.absorbPacket, PACKET_SIZE]
        omega
      rw [ih r m.absorbPacket buf lc ht' hf']
      conv_rhs => unfold contPacketsSpec
      rw [if_neg hlast]

/-- Every packet of `contPacketsSpec` is 64 bytes long. -/
theorem contPacketsSpec_length64 (r : Response) (buf : Nat → Nat) :
    ∀ (d : Nat) (m : MessageState), r.length - m.transmitted = d →
      ∀ pkt ∈ contPacketsSpec r m buf, pkt.length = PACKET_SIZE := by
  intro d
  induction d using Nat.strong_induction_on with
  | _ d ih =>
    intro m hd pkt hmem
    unfold contPacketsSpec at hmem
    by_cases hlast : 5 + (r.length - m.transmitted) ≤ PACKET_SIZE
    · rw [if_pos hlast] at hmem
      rcases List.mem_singleton.mp hmem with rfl
      simp [contPacket]
    · rw [if_neg hlast] at hmem
      rcases List.mem_cons.mp hmem with rfl | hmem'
      · simp [contPacket]
      · have hp : PACKET_SIZE = 64 := rfl
        refine ih (d - 59) (by omega) m.absorbPacket ?_ pkt hmem'
        simp only [MessageState.absorbPacket, PACKET_SIZE]
        omega

/-- The number of continuation packets is `⌈(len - transmitted) / 59⌉`. -/
theorem contPacketsSpec_length (r : Response) (buf : Nat → Nat) :
    ∀ (d : Nat) (m : MessageState), r.length - m.transmitted = d →
      m.transmitted < r.length →
      (contPacketsSpec r m buf).length = (d + 58) / 59 := by
  intro d
  induction d using Nat.strong_induction_on with
  | _ d ih =>
    intro m hd ht
    unfold contPacketsSpec
    have hp : PACKET_SIZE = 64 := rfl
    by_cases hlast : 5 + (r.length - m.transmitted) ≤ PACKET_SIZE
    · rw [if_pos hlast]
      simp only [List.length_singleton]
      omega
    · rw [if_neg hlast]
      simp only [List.length_cons]
      rw [ih (d - 59) (by omega) m.absorbPacket
        (by simp only [MessageState.absorbPacket, PACKET_SIZE]; omega)
        (by simp only [MessageState.absorbPacket, PACKET_SIZE]; omega)]
      omega

/-- The j-th packet of `contPacketsSpec` is the continuation packet for
sequence number `next_sequence + j` and offset `transmitted + 59 j`. -/
theorem contPacketsSpec_getD (r : Response) (buf : Nat → Nat) :
    ∀ (d : Nat) (m : MessageState), r.length - m.transmitted = d →
      m.transmitted < r.length →
      ∀ j, j < (contPacketsSpec r m buf).length →
        (contPacketsSpec r m buf).getD j [] =
          contPacket r
            { nextSequence := (m.nextSequence + j) % 256
            , transmitted := m.transmitted + 59 * j } buf := by
  intro d
  induction d using Nat.strong_induction_on with
  | _ d ih =>
    intro m hd ht j hj
    have hp : PACKET_SIZE = 64 := rfl
    by_cases hlast : 5 + (r.length - m.transmitted) ≤ PACKET_SIZE
    · have hlen : (contPacketsSpec r m buf).length = 1 := by
        rw [contPacketsSpec_length r buf d m hd ht]
        omega
      have hj0 : j = 0 := by omega
      subst hj0
      unfold contPacketsSpec
      rw [if_pos hlast]
      simp only [List.getD_cons_zero, Nat.mul_zero, Nat.add_zero]
      exact (contPacket_mod r m.nextSequence m.transmitted buf).symm
    · unfold contPacketsSpec
      rw [if_neg hlast]
      cases j with
      | zero =>
        simp only [List.getD_cons_zero, Nat.mul_zero, Nat.add_zero]
        exact (contPacket_mod r m.nextSequence m.transmitted buf).symm
      | succ j =>
        rw [List.getD_cons_succ]
        have hj' : j < (contPacketsSpec r m.absorbPacket buf).length := by
          have h1 : (contPacketsSpec r m buf).length = (d + 58) / 59 :=
            contPacketsSpec_length r buf d m hd ht
          have h2 : (contPacketsSpec r m.absorbPacket buf).length = (d - 59 + 58) / 59 :=
            contPacketsSpec_length r buf (d - 59) m.absorbPacket
              (by simp only [MessageState.absorbPacket, PACKET_SIZE]; omega)
              (by simp only [MessageState.absorbPacket, PACKET_SIZE]; omega)
          omega
        rw [ih (d - 59) (by omega) m.absorbPacket
          (by simp only [MessageState.absorbPacket, PACKET_SIZE]; omega)
          (by simp only [MessageState.absorbPacket, PACKET_SIZE]; omega) j hj']
        have hms : (⟨(m.absorbPacket.nextSequence + j) % 256
            , m.absorbPacket.transmitted + 59 * j⟩ : MessageState) =
            ⟨(m.nextSequence + (j + 1)) % 256, m.transmitted + 59 * (j + 1)⟩ := by
          simp only [MessageState.absorbPacket, PACKET_SIZE, MessageState.mk.injEq]
          constructor
          · omega
          · ring
        rw [hms]

/-- One full response transmission: drive `maybe_write_packet` from
`ResponsePending` with every endpoint write succeeding until the pipe has
nothing left to send (130 steps are enough for any `length ≤ MESSAGE_SIZE`). -/
def transmit (r : Response) (buf : Nat → Nat) (lc : Nat) : List (List Nat) × Pipe :=
  runSend 130 { state := .responsePending r, buffer := buf, lastChannel := lc }

/-- Claim C6: transmitting a buffered response of payload length `L` with
every endpoint write succeeding emits exactly `⌈(L - 57)/59⌉ + 1` packets
when `L > 57` and exactly one packet when `L ≤ 57`; the continuation
packets carry sequence bytes `0, 1, 2, …`; every emitted packet is exactly
64 bytes long with all bytes beyond the used header-plus-payload region
equal to zero; and after the final packet is accepted the pipe is `Idle`. -/
theorem c6_response_fragmentation (r : Response) (buf : Nat → Nat) (lc : Nat)
    (hlen : r.length ≤ MESSAGE_SIZE) :
    ((transmit r buf lc).1.length =
      if r.length ≤ 57 then 1 else (r.length - 57 + 58) / 59 + 1) ∧
    (transmit r buf lc).2.state = State.idle ∧
    (∀ pkt ∈ (transmit r buf lc).1, pkt.length = PACKET_SIZE) ∧
    (∀ j, j + 1 < (transmit r buf lc).1.length →
      ((transmit r buf lc).1.getD (j + 1) []).getD 4 0 = j) ∧
    (∀ j, j < (transmit r buf lc).1.length → ∀ i, usedLength r.length j ≤ i →
      i < PACKET_SIZE → ((transmit r buf lc).1.getD j []).getD i 0 = 0) := by
  have hp : PACKET_SIZE = 64 := rfl
  have hm : MESSAGE_SIZE = 7609 := rfl
  by_cases hfit : 7 + r.length ≤ PACKET_SIZE
  · have hred : transmit r buf lc = ([initPacket r buf], { state := .idle, buffer := buf, lastChannel := lc }) := by
      unfold transmit
      rw [show (130 : Nat) = 129 + 1 from rfl]
      rw [runSend_step 129 _ _ _ (by simp only [maybeWriteStep, if_pos hfit]; rfl)]
      rw [runSend_idle]
    rw [hred]
    refine ⟨by rw [if_pos (by omega)]; rfl, rfl, ?_, ?_, ?_⟩
    · intro pkt hmem
      rcases List.mem_singleton.mp hmem with rfl
      simp [initPacket]
    · intro j hj
      simp at hj
    · intro j hj i hused hi
      have hj0 : j = 0 := by simpa using hj
      subst hj0
      simp [usedLength, PACKET_SIZE] at hused
      rw [hp] at hi
      simp only [List.getD_cons_zero, initPacket]
      rw [getD_map_range _ PACKET_SIZE i (by rw [hp]; omega)]
      unfold initPacketByte
      rw [if_neg (by omega), if_neg (by omega), if_neg (by omega), if_neg (by omega),
        if_neg (by simp only [PACKET_SIZE]; omega)]
  · have h57 : 57 < r.length := by omega
    have hcount : (r.length - 57 + 58) / 59 ≤ 129 := by omega
    have hd0 : r.length - MessageState.deflt.transmitted = r.length - 57 := rfl
    have ht0 : MessageState.deflt.transmitted < r.length := h57
    have hclen : (contPacketsSpec r MessageState.deflt buf).length = (r.length - 57 + 58) / 59 :=
      contPacketsSpec_length r buf (r.length - 57) MessageState.deflt hd0 ht0
    have hred : transmit r buf lc =
        (initPacket r buf :: contPacketsSpec r MessageState.deflt buf,
         { state := .idle, buffer := buf, lastChannel := lc }) := by
      unfold transmit
      rw [show (130 : Nat) = 129 + 1 from rfl]
      rw [runSend_step 129 _ _ _ (by simp only [maybeWriteStep, if_neg hfit]; rfl)]
      rw [runSend_sending 129 r MessageState.deflt buf lc ht0 (by rw [hd0]; exact hcount)]
    rw [hred]
    refine ⟨?_, rfl, ?_, ?_, ?_⟩
    · rw [List.length_cons, hclen, if_neg (by omega)]
    · intro pkt hmem
      rcases List.mem_cons.mp hmem with rfl | hmem'
      · simp [initPacket]
      · exact contPacketsSpec_length64 r buf (r.length - 57) MessageState.deflt hd0 pkt hmem'
    · intro j hj
      rw [List.length_cons, hclen] at hj
      have hj' : j < (contPacketsSpec r MessageState.deflt buf).length := by omega
      rw [List.getD_cons_succ,
        contPacketsSpec_getD r buf (r.length - 57) MessageState.deflt hd0 ht0 j hj']
      simp only [contPacket]
      rw [getD_map_range _ PACKET_SIZE 4 (by decide)]
      unfold contPacketByte
      rw [if_neg (by omega), if_pos rfl]
      simp only [MessageState.deflt, PACKET_SIZE]
      omega
    · intro j hj i hused hi
      rw [List.length_cons, hclen] at hj
      cases j with
      | zero =>
        simp [usedLength, PACKET_SIZE] at hused
        rw [hp] at hi
        omega
      | succ j =>
        have hj' : j < (contPacketsSpec r MessageState.deflt buf).length := by omega
        have htj : 57 + 59 * j < r.length := by omega
        rw [List.getD_cons_succ,
          contPacketsSpec_getD r buf (r.length - 57) MessageState.deflt hd0 ht0 j hj']
        simp only [contPacket]
        rw [hp] at hi
        rw [getD_map_range _ PACKET_SIZE i (by rw [hp]; omega)]
        unfold contPacketByte
        simp [usedLength, PACKET_SIZE] at hused
        simp only [MessageState.deflt, PACKET_SIZE]
        rw [if_neg (by omega), if_neg (by omega), if_neg (by omega)]

/-- Claim C6, witness: a 200-byte response is sent as 1 + 3 packets and the
pipe finishes in `Idle`. -/
theorem c6_response_fragmentation_witness :
    ((transmit { channel := 1, command := Command.ping, length := 200 } zeroBuf 0).1.length =
      if (200 : Nat) ≤ 57 then 1 else (200 - 57 + 58) / 59 + 1) ∧
    (transmit { channel := 1, command := Command.ping, length := 200 } zeroBuf 0).2.state =
      State.idle :=
  ⟨(c6_response_fragmentation _ zeroBuf 0 (by decide)).1,
   (c6_response_fragmentation _ zeroBuf 0 (by decide)).2.1⟩

end UsbdCtaphid
